import Mathlib

/-!
# Verification of `promlazy` (lazy Prometheus metric registration)

Shallow embedding of `src/lazy.go`. The package wraps a Prometheus
registry: a `Factory` accumulates metric objects (`collectors`) and
registers the whole batch with the registry exactly once, triggered by
the first mutating call on any proxy (or by an explicit `Register()`).

Modelling choices, each tied to the source:

* A metric's identity is its name plus label set (`MetricId`); the real
  Prometheus registry rejects a second registration of the same identity.
* The external registry (`prometheus.Registerer`) is modelled as the list
  of registered metric identities, in registration order.
  `MustRegister` (called by `Factory.init`) registers its arguments one
  by one and panics at the first identity conflict, leaving the metrics
  before the conflict registered; a panic is modelled as a `Bool` flag
  (`true` = panicked) and aborts the rest of the call.
* `sync.Once.Do` marks itself done even when the function panics (its
  implementation stores the `done` flag in a `defer`), so `Register`
  sets `fired := true` in both the success and the panic case.
* The real metric objects perform floating-point arithmetic that is out
  of scope here (the spec treats them as external collaborators); each
  metric carries the log of mutating operations it received, so that
  "forward the call with its argument unchanged" is observable.
  `float64` arguments are modelled as `ℚ` since the code never computes
  with them.
-/

/-- Identity of a Prometheus metric: fully qualified name plus labels.
Two metrics conflict in a registry iff their identities are equal. -/
structure MetricId where
  name : String
  labels : List (String × String)
deriving DecidableEq, Repr

/-- The four metric kinds the factory can construct
(`NewCounter`, `NewGauge`, `NewSummary`, `NewHistogram`). -/
inductive MetricKind
  | counter
  | gauge
  | summary
  | histogram
deriving DecidableEq, Repr

/-- A mutating operation forwarded to a real metric object:
counter `Inc`/`Add`, gauge `Set`/`Inc`/`Dec`/`Add`/`Sub`/`SetToCurrentTime`,
summary/histogram `Observe`. -/
inductive MOp
  | inc
  | dec
  | setToCurrentTime
  | add (x : ℚ)
  | set (x : ℚ)
  | sub (x : ℚ)
  | observe (x : ℚ)
deriving DecidableEq, Repr

/-- A real metric object (`prometheus.Counter` / `Gauge` / `Summary` /
`Histogram`): fixed identity and kind, plus the log of mutating calls it
has received (oldest first). -/
structure Metric where
  mid : MetricId
  kind : MetricKind
  log : List MOp
deriving DecidableEq, Repr

instance : Inhabited Metric := ⟨⟨⟨"", []⟩, .counter, []⟩⟩

/-- State of one `Factory` together with its backing registry:
`registry` is the registry's list of registered identities (in order),
`fired` the `sync.Once` gate (`initOnce`), `metrics` the metric objects
this factory created, in creation order.  In the source, `f.collectors`
holds exactly the created metric objects in creation order (every typed
constructor appends the object it creates), so the pending collection is
`metrics` itself; a proxy's handle is an index into `metrics`. -/
structure FState where
  registry : List MetricId
  fired : Bool
  metrics : List Metric
deriving DecidableEq, Repr

/-- Go `With(r)`: a fresh factory bound to registry `r`.  No side effects.
(`New()` is `With(prometheus.DefaultRegisterer)`, the same with a
particular registry.) -/
def With (r : List MetricId) : FState :=
  { registry := r, fired := false, metrics := [] }

/-- The identities of the factory's pending collectors, in order
(what `f.collectors` contributes to `MustRegister`). -/
def FState.collectorIds (s : FState) : List MetricId :=
  s.metrics.map (·.mid)

/-- Common body of the typed constructors: create the real metric object
and append it to `f.collectors`; return the new state and the handle of
the created metric.  No registration side effect. -/
def newMetric (k : MetricKind) (s : FState) (i : MetricId) : FState × Nat :=
  ({ s with metrics := s.metrics ++ [⟨i, k, []⟩] }, s.metrics.length)

/-- Go `Factory.NewCounter`: creates the counter, appends it to the pending
collection, returns the proxy (here: the handle). -/
def NewCounter (s : FState) (i : MetricId) : FState × Nat :=
  newMetric .counter s i

/-- Go `Factory.NewGauge`. -/
def NewGauge (s : FState) (i : MetricId) : FState × Nat :=
  newMetric .gauge s i

/-- Go `Factory.NewSummary`. -/
def NewSummary (s : FState) (i : MetricId) : FState × Nat :=
  newMetric .summary s i

/-- Go `Factory.NewHistogram`. -/
def NewHistogram (s : FState) (i : MetricId) : FState × Nat :=
  newMetric .histogram s i

/-- Go `Registerer.MustRegister(cs...)`: register the collectors one by one;
at the first identity conflict, panic (second component `true`), leaving
the collectors registered so far in the registry. -/
def mustRegister : List MetricId → List MetricId → List MetricId × Bool
  | reg, [] => (reg, false)
  | reg, i :: rest =>
    if i ∈ reg then (reg, true) else mustRegister (reg ++ [i]) rest

/-- Go `Factory.Register`, i.e. `f.initOnce.Do(f.init)` where `f.init` runs
`f.r.MustRegister(f.collectors...)`.  If the gate has fired, do nothing;
otherwise run `init` and mark the gate fired — also when `init` panics,
because `sync.Once.Do` stores its `done` flag in a `defer`.  The second
component is the panic flag. -/
def Register (s : FState) : FState × Bool :=
  if s.fired then (s, false)
  else
    let (reg, p) := mustRegister s.registry s.collectorIds
    ({ s with registry := reg, fired := true }, p)

/-- Modify the element of a list at an index, when in range. -/
def listModify {α : Type} : List α → Nat → (α → α) → List α
  | [], _, _ => []
  | a :: as, 0, f => f a :: as
  | a :: as, n + 1, f => a :: listModify as n f

/-- Deliver a mutating call to the wrapped real metric object at handle
`h`: the operation is appended, unchanged, to that metric's log. -/
def forward (s : FState) (h : Nat) (op : MOp) : FState :=
  { s with metrics := listModify s.metrics h (fun m => { m with log := m.log ++ [op] }) }

/-- Go `lazyCounter.Inc`: `l.Factory.Register()` then `l.Counter.Inc()`.
If `Register` panics, the panic propagates before the forward happens. -/
def lazyCounterInc (s : FState) (h : Nat) : FState × Bool :=
  let (s1, p) := Register s
  if p then (s1, true) else (forward s1 h .inc, false)

/-- Go `lazyCounter.Add`. -/
def lazyCounterAdd (s : FState) (h : Nat) (x : ℚ) : FState × Bool :=
  let (s1, p) := Register s
  if p then (s1, true) else (forward s1 h (.add x), false)

/-- Go `lazyGauge.Set`. -/
def lazyGaugeSet (s : FState) (h : Nat) (x : ℚ) : FState × Bool :=
  let (s1, p) := Register s
  if p then (s1, true) else (forward s1 h (.set x), false)

/-- Go `lazyGauge.Inc`. -/
def lazyGaugeInc (s : FState) (h : Nat) : FState × Bool :=
  let (s1, p) := Register s
  if p then (s1, true) else (forward s1 h .inc, false)

/-- Go `lazyGauge.Dec`. -/
def lazyGaugeDec (s : FState) (h : Nat) : FState × Bool :=
  let (s1, p) := Register s
  if p then (s1, true) else (forward s1 h .dec, false)

/-- Go `lazyGauge.Add`. -/
def lazyGaugeAdd (s : FState) (h : Nat) (x : ℚ) : FState × Bool :=
  let (s1, p) := Register s
  if p then (s1, true) else (forward s1 h (.add x), false)

/-- Go `lazyGauge.Sub`. -/
def lazyGaugeSub (s : FState) (h : Nat) (x : ℚ) : FState × Bool :=
  let (s1, p) := Register s
  if p then (s1, true) else (forward s1 h (.sub x), false)

/-- Go `lazyGauge.SetToCurrentTime`. -/
def lazyGaugeSetToCurrentTime (s : FState) (h : Nat) : FState × Bool :=
  let (s1, p) := Register s
  if p then (s1, true) else (forward s1 h .setToCurrentTime, false)

/-- Go `lazySummary.Observe`. -/
def lazySummaryObserve (s : FState) (h : Nat) (x : ℚ) : FState × Bool :=
  let (s1, p) := Register s
  if p then (s1, true) else (forward s1 h (.observe x), false)

/-- Go `lazyHistogram.Observe`. -/
def lazyHistogramObserve (s : FState) (h : Nat) (x : ℚ) : FState × Bool :=
  let (s1, p) := Register s
  if p then (s1, true) else (forward s1 h (.observe x), false)

/-- The `Desc`/`Describe` read of the wrapped metric, promoted by Go struct
embedding: the proxy types embed `prometheus.Counter` etc., so the
descriptor/read methods of the real metric are inherited unchanged and
do not go through the factory. -/
def metricDesc (m : Metric) : MetricId := m.mid

/-- The `Write`/`Collect` read of the wrapped metric: a snapshot of the state the
metric accumulated, modelled as the log of mutating calls it received. -/
def metricCollect (m : Metric) : List MOp := m.log

/-- A descriptor read on a proxy, as promoted by embedding: delegate to
the wrapped metric at handle `h`, touching neither factory nor gate. -/
def lazyDesc (s : FState) (h : Nat) : FState × MetricId :=
  (s, metricDesc (s.metrics.getD h default))

/-- A collect/read on a proxy, as promoted by embedding. -/
def lazyCollect (s : FState) (h : Nat) : FState × List MOp :=
  (s, metricCollect (s.metrics.getD h default))

/-- One typed-constructor call, for reasoning about arbitrary batches. -/
inductive CtorCmd
  | counter (i : MetricId)
  | gauge (i : MetricId)
  | summary (i : MetricId)
  | histogram (i : MetricId)
deriving DecidableEq, Repr

/-- The identity a constructor call gives its metric. -/
def CtorCmd.cid : CtorCmd → MetricId
  | .counter i => i
  | .gauge i => i
  | .summary i => i
  | .histogram i => i

/-- Run one typed constructor (dropping the returned handle). -/
def applyCtor (s : FState) : CtorCmd → FState
  | .counter i => (NewCounter s i).1
  | .gauge i => (NewGauge s i).1
  | .summary i => (NewSummary s i).1
  | .histogram i => (NewHistogram s i).1

/-- A factory over registry `r` after a batch of typed-constructor
calls, as in the intended use (package-level metric definitions). -/
def build (r : List MetricId) (cmds : List CtorCmd) : FState :=
  cmds.foldl applyCtor (With r)

/-- One mutating proxy call: which entry point, on which handle, with
which argument.  These are exactly the mutating methods the proxies
define. -/
inductive MutCall
  | counterInc (h : Nat)
  | counterAdd (h : Nat) (x : ℚ)
  | gaugeSet (h : Nat) (x : ℚ)
  | gaugeInc (h : Nat)
  | gaugeDec (h : Nat)
  | gaugeAdd (h : Nat) (x : ℚ)
  | gaugeSub (h : Nat) (x : ℚ)
  | gaugeSetToCurrentTime (h : Nat)
  | summaryObserve (h : Nat) (x : ℚ)
  | histogramObserve (h : Nat) (x : ℚ)
deriving DecidableEq, Repr

/-- The handle a mutating call targets. -/
def MutCall.handle : MutCall → Nat
  | .counterInc h => h
  | .counterAdd h _ => h
  | .gaugeSet h _ => h
  | .gaugeInc h => h
  | .gaugeDec h => h
  | .gaugeAdd h _ => h
  | .gaugeSub h _ => h
  | .gaugeSetToCurrentTime h => h
  | .summaryObserve h _ => h
  | .histogramObserve h _ => h

/-- The underlying operation a mutating call forwards. -/
def MutCall.op : MutCall → MOp
  | .counterInc _ => .inc
  | .counterAdd _ x => .add x
  | .gaugeSet _ x => .set x
  | .gaugeInc _ => .inc
  | .gaugeDec _ => .dec
  | .gaugeAdd _ x => .add x
  | .gaugeSub _ x => .sub x
  | .gaugeSetToCurrentTime _ => .setToCurrentTime
  | .summaryObserve _ x => .observe x
  | .histogramObserve _ x => .observe x

/-- Dispatch a mutating call to the proxy method it names. -/
def applyMut (s : FState) : MutCall → FState × Bool
  | .counterInc h => lazyCounterInc s h
  | .counterAdd h x => lazyCounterAdd s h x
  | .gaugeSet h x => lazyGaugeSet s h x
  | .gaugeInc h => lazyGaugeInc s h
  | .gaugeDec h => lazyGaugeDec s h
  | .gaugeAdd h x => lazyGaugeAdd s h x
  | .gaugeSub h x => lazyGaugeSub s h x
  | .gaugeSetToCurrentTime h => lazyGaugeSetToCurrentTime s h
  | .summaryObserve h x => lazySummaryObserve s h x
  | .histogramObserve h x => lazyHistogramObserve s h x

/-! ## Basic lemmas about the embedded operations -/

lemma Register_eq (s : FState) :
    Register s =
      if s.fired then (s, false)
      else ({ s with registry := (mustRegister s.registry s.collectorIds).1, fired := true },
            (mustRegister s.registry s.collectorIds).2) := by
  unfold Register
  rcases hmr : mustRegister s.registry s.collectorIds with ⟨reg, p⟩
  simp [hmr]

lemma Register_of_fired (s : FState) (hf : s.fired = true) : Register s = (s, false) := by
  simp [Register_eq, hf]

lemma Register_fst_fired (s : FState) : (Register s).1.fired = true := by
  by_cases hf : s.fired <;> simp [Register_eq, hf]

lemma forward_registry (s : FState) (h : Nat) (op : MOp) :
    (forward s h op).registry = s.registry := rfl

lemma forward_fired (s : FState) (h : Nat) (op : MOp) :
    (forward s h op).fired = s.fired := rfl

lemma applyMut_eq (s : FState) (c : MutCall) :
    applyMut s c =
      if (Register s).2 then ((Register s).1, true)
      else (forward (Register s).1 c.handle c.op, false) := by
  rcases hR : Register s with ⟨s1, p⟩
  cases c <;>
    simp [applyMut, lazyCounterInc, lazyCounterAdd, lazyGaugeSet, lazyGaugeInc,
      lazyGaugeDec, lazyGaugeAdd, lazyGaugeSub, lazyGaugeSetToCurrentTime,
      lazySummaryObserve, lazyHistogramObserve, hR, MutCall.handle, MutCall.op]

lemma applyMut_fst_fired (s : FState) (c : MutCall) : (applyMut s c).1.fired = true := by
  rw [applyMut_eq]
  by_cases hp : (Register s).2 <;> simp [hp, forward_fired, Register_fst_fired]

lemma applyMut_of_fired (s : FState) (c : MutCall) (hf : s.fired = true) :
    applyMut s c = (forward s c.handle c.op, false) := by
  rw [applyMut_eq, Register_of_fired s hf]
  simp

lemma mustRegister_ok (ids : List MetricId) : ∀ reg : List MetricId, ids.Nodup →
    (∀ i ∈ ids, i ∉ reg) → mustRegister reg ids = (reg ++ ids, false) := by
  induction ids with
  | nil => intro reg _ _; simp [mustRegister]
  | cons a rest ih =>
    intro reg hnd hdisj
    have ha : a ∉ reg := hdisj a (List.mem_cons_self a rest)
    rw [mustRegister, if_neg ha, ih (reg ++ [a]) (List.Nodup.of_cons hnd)]
    · simp
    · intro i hi
      simp only [List.mem_append, List.mem_singleton]
      rintro (h1 | rfl)
      · exact hdisj i (List.mem_cons_of_mem a hi) h1
      · exact (List.nodup_cons.mp hnd).1 hi

lemma mustRegister_panic (ids : List MetricId) : ∀ reg : List MetricId,
    (mustRegister reg ids).2 = true ↔ ¬(ids.Nodup ∧ ∀ i ∈ ids, i ∉ reg) := by
  induction ids with
  | nil => intro reg; simp [mustRegister]
  | cons a rest ih =>
    intro reg
    by_cases ha : a ∈ reg
    · rw [mustRegister, if_pos ha]
      simp only [true_iff]
      rintro ⟨_, hall⟩
      exact hall a (List.mem_cons_self a rest) ha
    · rw [mustRegister, if_neg ha, ih (reg ++ [a])]
      constructor
      · rintro hcon ⟨hnd, hall⟩
        refine hcon ⟨List.Nodup.of_cons hnd, fun i hi => ?_⟩
        simp only [List.mem_append, List.mem_singleton]
        rintro (h1 | rfl)
        · exact hall i (List.mem_cons_of_mem a hi) h1
        · exact (List.nodup_cons.mp hnd).1 hi
      · rintro hcon ⟨hndr, hall⟩
        refine hcon ⟨List.nodup_cons.mpr ⟨fun hmem => ?_, hndr⟩, fun i hi => ?_⟩
        · exact hall a hmem (by simp)
        · rcases List.mem_cons.mp hi with rfl | hi'
          · exact ha
          · intro hreg
            exact hall i hi' (by simp [hreg])

lemma applyCtor_registry (s : FState) (c : CtorCmd) :
    (applyCtor s c).registry = s.registry := by
  cases c <;> rfl

lemma applyCtor_fired (s : FState) (c : CtorCmd) :
    (applyCtor s c).fired = s.fired := by
  cases c <;> rfl

lemma applyCtor_collectorIds (s : FState) (c : CtorCmd) :
    (applyCtor s c).collectorIds = s.collectorIds ++ [c.cid] := by
  cases c <;>
    simp [applyCtor, NewCounter, NewGauge, NewSummary, NewHistogram, newMetric,
      FState.collectorIds, CtorCmd.cid]

lemma foldl_registry (cmds : List CtorCmd) : ∀ s : FState,
    (cmds.foldl applyCtor s).registry = s.registry := by
  induction cmds with
  | nil => intro s; rfl
  | cons c rest ih => intro s; rw [List.foldl_cons, ih, applyCtor_registry]

lemma foldl_fired (cmds : List CtorCmd) : ∀ s : FState,
    (cmds.foldl applyCtor s).fired = s.fired := by
  induction cmds with
  | nil => intro s; rfl
  | cons c rest ih => intro s; rw [List.foldl_cons, ih, applyCtor_fired]

lemma foldl_collectorIds (cmds : List CtorCmd) : ∀ s : FState,
    (cmds.foldl applyCtor s).collectorIds = s.collectorIds ++ cmds.map CtorCmd.cid := by
  induction cmds with
  | nil => intro s; simp
  | cons c rest ih =>
    intro s
    rw [List.foldl_cons, ih, applyCtor_collectorIds]
    simp

lemma build_registry (r : List MetricId) (cmds : List CtorCmd) :
    (build r cmds).registry = r := foldl_registry cmds (With r)

lemma build_fired (r : List MetricId) (cmds : List CtorCmd) :
    (build r cmds).fired = false := foldl_fired cmds (With r)

lemma build_collectorIds (r : List MetricId) (cmds : List CtorCmd) :
    (build r cmds).collectorIds = cmds.map CtorCmd.cid := by
  have h := foldl_collectorIds cmds (With r)
  simpa [With, FState.collectorIds] using h

/-! ## Claims -/

/-- C1: for every factory, after exactly one mutating call on any one
proxy the factory produced, every metric created by that factory before
the call is registered with the backing registry in one batch (the whole
batch is appended to the registry at once), not only the metric that was
touched.  The hypotheses say the batch has no identity conflict. -/
theorem C1_one_write_registers_whole_batch (r : List MetricId) (cmds : List CtorCmd)
    (c : MutCall)
    (hnodup : (cmds.map CtorCmd.cid).Nodup)
    (hdisj : ∀ i ∈ cmds.map CtorCmd.cid, i ∉ r) :
    (applyMut (build r cmds) c).2 = false ∧
    (applyMut (build r cmds) c).1.registry = r ++ cmds.map CtorCmd.cid ∧
    ∀ i ∈ cmds.map CtorCmd.cid, i ∈ (applyMut (build r cmds) c).1.registry := by
  have hmr : mustRegister (build r cmds).registry (build r cmds).collectorIds
      = (r ++ cmds.map CtorCmd.cid, false) := by
    rw [build_registry, build_collectorIds]
    exact mustRegister_ok _ r hnodup hdisj
  have hR : Register (build r cmds)
      = ({ build r cmds with registry := r ++ cmds.map CtorCmd.cid, fired := true }, false) := by
    rw [Register_eq, if_neg (by simp [build_fired]), hmr]
  rw [applyMut_eq, hR]
  refine ⟨by simp, by simp [forward_registry], ?_⟩
  intro i hi
  simp [forward_registry, List.mem_append, hi]

/-- Witness for C1: a counter named m1 and a gauge named m2; a single
`Set` on the gauge registers both metrics. -/
theorem C1_witness :
    (applyMut (build [] [CtorCmd.counter ⟨"m1", []⟩, CtorCmd.gauge ⟨"m2", []⟩])
        (MutCall.gaugeSet 1 42)).2 = false ∧
    (applyMut (build [] [CtorCmd.counter ⟨"m1", []⟩, CtorCmd.gauge ⟨"m2", []⟩])
        (MutCall.gaugeSet 1 42)).1.registry = [⟨"m1", []⟩, ⟨"m2", []⟩] := by
  have h := C1_one_write_registers_whole_batch []
    [CtorCmd.counter ⟨"m1", []⟩, CtorCmd.gauge ⟨"m2", []⟩]
    (MutCall.gaugeSet 1 42) (by decide) (by decide)
  refine ⟨h.1, ?_⟩
  rw [h.2.1]
  rfl

/-- C2: before `Register()` or any mutating proxy call, no metric of the
factory is registered: any sequence of typed-constructor calls leaves the
registry unchanged and the gate unfired, while each typed constructor
creates the real metric object and appends it to the pending collection
without registering it. -/
theorem C2_constructors_defer_registration (r : List MetricId) (cmds : List CtorCmd) :
    (build r cmds).registry = r ∧ (build r cmds).fired = false ∧
    (build r cmds).collectorIds = cmds.map CtorCmd.cid ∧
    ∀ (s : FState) (i : MetricId),
      NewCounter s i = ({ s with metrics := s.metrics ++ [⟨i, .counter, []⟩] }, s.metrics.length) ∧
      NewGauge s i = ({ s with metrics := s.metrics ++ [⟨i, .gauge, []⟩] }, s.metrics.length) ∧
      NewSummary s i = ({ s with metrics := s.metrics ++ [⟨i, .summary, []⟩] }, s.metrics.length) ∧
      NewHistogram s i = ({ s with metrics := s.metrics ++ [⟨i, .histogram, []⟩] }, s.metrics.length) := by
  exact ⟨build_registry r cmds, build_fired r cmds, build_collectorIds r cmds,
    fun s i => ⟨rfl, rfl, rfl, rfl⟩⟩

/-- C3: every mutating entry point of every proxy kind first invokes the
owning factory's `Register()` (so the gate is fired afterwards) and then,
unless registration panicked, forwards exactly its own operation with its
argument unchanged to the wrapped metric; no entry point skips the
trigger. -/
theorem C3_mutating_calls_trigger_then_forward (s : FState) (c : MutCall) :
    (applyMut s c).1.fired = true ∧
    applyMut s c =
      (if (Register s).2 then ((Register s).1, true)
       else (forward (Register s).1 c.handle c.op, false)) :=
  ⟨applyMut_fst_fired s c, applyMut_eq s c⟩

/-- C4: `Register()` is idempotent — a second call after any first call
does nothing — and after a first mutating call, further mutating calls
never change the registry and never panic. -/
theorem C4_registration_idempotent (s : FState) :
    Register (Register s).1 = ((Register s).1, false) ∧
    ∀ c c' : MutCall,
      (applyMut (applyMut s c).1 c').1.registry = (applyMut s c).1.registry ∧
      (applyMut (applyMut s c).1 c').2 = false := by
  refine ⟨Register_of_fired _ (Register_fst_fired s), fun c c' => ?_⟩
  rw [applyMut_of_fired _ c' (applyMut_fst_fired s c)]
  exact ⟨forward_registry _ _ _, rfl⟩

/-- C5: if the batch has two metrics of identical identity, or conflicts
with a metric already in the registry, then construction itself raises
nothing (registry unchanged, gate unfired), and the first explicit
`Register()` call as well as the first mutating call on any proxy panics
at that call site (the forward is skipped: the call returns the state
`Register` left behind, with the panic flag set). -/
theorem C5_conflict_panics_at_first_use (r : List MetricId) (cmds : List CtorCmd)
    (hconf : ¬((cmds.map CtorCmd.cid).Nodup ∧ ∀ i ∈ cmds.map CtorCmd.cid, i ∉ r)) :
    (build r cmds).registry = r ∧ (build r cmds).fired = false ∧
    (Register (build r cmds)).2 = true ∧
    ∀ c : MutCall, applyMut (build r cmds) c = ((Register (build r cmds)).1, true) := by
  have hp : (Register (build r cmds)).2 = true := by
    rw [Register_eq, if_neg (by simp [build_fired])]
    show (mustRegister (build r cmds).registry (build r cmds).collectorIds).2 = true
    rw [build_registry, build_collectorIds]
    exact (mustRegister_panic (cmds.map CtorCmd.cid) r).mpr hconf
  refine ⟨build_registry r cmds, build_fired r cmds, hp, fun c => ?_⟩
  rw [applyMut_eq, if_pos hp]

/-- Witness for C5: two counters both named m; `Register` panics, and so
does an `Inc` on the second counter's proxy. -/
theorem C5_witness :
    (Register (build [] [CtorCmd.counter ⟨"m", []⟩, CtorCmd.counter ⟨"m", []⟩])).2 = true ∧
    (applyMut (build [] [CtorCmd.counter ⟨"m", []⟩, CtorCmd.counter ⟨"m", []⟩])
        (MutCall.counterInc 1)).2 = true := by
  have h := C5_conflict_panics_at_first_use []
    [CtorCmd.counter ⟨"m", []⟩, CtorCmd.counter ⟨"m", []⟩] (by decide)
  exact ⟨h.2.2.1, by rw [h.2.2.2 (MutCall.counterInc 1)]⟩

/-- C6: once the gate has fired, the registered set is final — a typed
constructor called afterwards appends the new metric to the pending
collection, but later `Register()` calls are no-ops and mutating calls
(on any proxy, including the new one) never change the registry and never
panic. -/
theorem C6_frozen_after_fire (s : FState) (hf : s.fired = true) (c0 : CtorCmd) :
    (applyCtor s c0).registry = s.registry ∧
    (applyCtor s c0).collectorIds = s.collectorIds ++ [c0.cid] ∧
    Register (applyCtor s c0) = (applyCtor s c0, false) ∧
    ∀ c : MutCall, (applyMut (applyCtor s c0) c).1.registry = s.registry ∧
      (applyMut (applyCtor s c0) c).2 = false := by
  have hf2 : (applyCtor s c0).fired = true := by rw [applyCtor_fired, hf]
  refine ⟨applyCtor_registry s c0, applyCtor_collectorIds s c0,
    Register_of_fired _ hf2, fun c => ?_⟩
  rw [applyMut_of_fired _ c hf2]
  exact ⟨by rw [forward_registry, applyCtor_registry], rfl⟩

/-- Witness for C6: a counter created after the gate fired is appended
but a new `Register()` is a no-op, and an `Inc` on it leaves the (empty)
registry unchanged. -/
theorem C6_witness :
    Register (applyCtor (FState.mk [] true []) (CtorCmd.counter ⟨"m", []⟩))
      = (applyCtor (FState.mk [] true []) (CtorCmd.counter ⟨"m", []⟩), false) ∧
    (applyMut (applyCtor (FState.mk [] true []) (CtorCmd.counter ⟨"m", []⟩))
        (MutCall.counterInc 0)).1.registry = [] := by
  have h := C6_frozen_after_fire (FState.mk [] true []) rfl (CtorCmd.counter ⟨"m", []⟩)
  exact ⟨h.2.2.1, (h.2.2.2 (MutCall.counterInc 0)).1⟩

/-- C7: calling `Register()` explicitly before any mutating proxy call
leaves factory and registry in the same end state as triggering
registration implicitly by the first mutating call (assuming the first
registration succeeds), and calling it again has no effect beyond the
first successful call. -/
theorem C7_explicit_register_equivalent (s : FState) ( _hf : s.fired = false)
    (hok : (Register s).2 = false) :
    (∀ c : MutCall, applyMut (Register s).1 c = applyMut s c) ∧
    Register (Register s).1 = ((Register s).1, false) := by
  refine ⟨fun c => ?_, Register_of_fired _ (Register_fst_fired s)⟩
  rw [applyMut_of_fired _ c (Register_fst_fired s), applyMut_eq, if_neg (by simp [hok])]

/-- Witness for C7: a factory with one counter m; `Register` then `Inc`
reaches the same state as `Inc` alone, and a second `Register` is a
no-op. -/
theorem C7_witness :
    applyMut (Register (build [] [CtorCmd.counter ⟨"m", []⟩])).1 (MutCall.counterInc 0)
      = applyMut (build [] [CtorCmd.counter ⟨"m", []⟩]) (MutCall.counterInc 0) ∧
    Register (Register (build [] [CtorCmd.counter ⟨"m", []⟩])).1
      = ((Register (build [] [CtorCmd.counter ⟨"m", []⟩])).1, false) := by
  have h := C7_explicit_register_equivalent (build [] [CtorCmd.counter ⟨"m", []⟩])
    (by decide) (by decide)
  exact ⟨h.1 (MutCall.counterInc 0), h.2⟩

/-- C8: the read-only/descriptor operations a proxy inherits from the
embedded real metric delegate to the wrapped metric and neither fire the
gate nor modify any factory or registry state. -/
theorem C8_readonly_passthrough (s : FState) (h : Nat) :
    lazyDesc s h = (s, metricDesc (s.metrics.getD h default)) ∧
    lazyCollect s h = (s, metricCollect (s.metrics.getD h default)) ∧
    (lazyDesc s h).1 = s ∧ (lazyCollect s h).1 = s :=
  ⟨rfl, rfl, rfl, rfl⟩

/-- C9: when the first `Register()` panics (registration conflict), the
one-shot gate is nevertheless marked fired, a further `Register()` is a
no-op raising nothing, and every later mutating proxy call forwards to
the wrapped metric without panicking and without changing the registry. -/
theorem C9_panic_marks_gate_fired (s : FState) ( _hp : (Register s).2 = true) :
    (Register s).1.fired = true ∧
    Register (Register s).1 = ((Register s).1, false) ∧
    ∀ c : MutCall,
      applyMut (Register s).1 c = (forward (Register s).1 c.handle c.op, false) ∧
      (applyMut (Register s).1 c).1.registry = (Register s).1.registry := by
  refine ⟨Register_fst_fired s, Register_of_fired _ (Register_fst_fired s), fun c => ?_⟩
  rw [applyMut_of_fired _ c (Register_fst_fired s)]
  exact ⟨rfl, forward_registry _ _ _⟩

/-- Witness for C9: after the panicking registration of two counters both
named m, the gate is fired and a further `Register` is a no-op. -/
theorem C9_witness :
    (Register (build [] [CtorCmd.counter ⟨"m", []⟩, CtorCmd.counter ⟨"m", []⟩])).1.fired
      = true ∧
    Register (Register (build [] [CtorCmd.counter ⟨"m", []⟩, CtorCmd.counter ⟨"m", []⟩])).1
      = ((Register (build [] [CtorCmd.counter ⟨"m", []⟩, CtorCmd.counter ⟨"m", []⟩])).1,
         false) := by
  have h := C9_panic_marks_gate_fired
    (build [] [CtorCmd.counter ⟨"m", []⟩, CtorCmd.counter ⟨"m", []⟩]) (by decide)
  exact ⟨h.1, h.2.1⟩

/-- C10: on a factory whose pending collection is empty (no typed
constructor was called), `Register()` never panics, fires the gate, and
leaves the registry unchanged. -/
theorem C10_empty_batch_register_noop (s : FState) (h0 : s.metrics = []) :
    (Register s).2 = false ∧ (Register s).1.fired = true ∧
    (Register s).1.registry = s.registry := by
  by_cases hf : s.fired = true
  · rw [Register_of_fired s hf]
    exact ⟨rfl, hf, rfl⟩
  · have hids : s.collectorIds = [] := by rw [FState.collectorIds, h0]; rfl
    rw [Register_eq, if_neg hf]
    simp [hids, mustRegister]

/-- Witness for C10: a fresh factory over an empty registry. -/
theorem C10_witness :
    (Register (With [])).2 = false ∧ (Register (With [])).1.fired = true ∧
    (Register (With [])).1.registry = (With []).registry :=
  C10_empty_batch_register_noop (With []) rfl
